import Mathlib

/-!
Verification development for the `tileset-comparator` repository
(`src/main.rs`, `src/single_or_vec.rs`, `src/sprite_id_with_weight.rs`).

The Rust program is shallowly embedded as follows.

* `SingleOrVec<T>` is the plain list it wraps (`SingleOrVec(pub Vec<T>)`),
  so every `x.0` of the source is just the list itself here.
* Machine integers: sprite ids, image dimensions and atlas bounds are `u32`
  in the source and are modelled as `Nat` (no claim involves wraparound;
  `sprite_id_with_weight.rs` declares the id payload as `i32`, but every use
  in `main.rs` treats ids as `u32`, so `Nat` is the faithful carrier).
  `i32` quantities that are only stored and compared (`height_3d`, `weight`,
  `offset`, `order`) are modelled as `Int`.
* A decoded `RgbaImage` is a width, a height and a pixel function; image
  file decoding is an external collaborator (spec §1, §6) and images are
  therefore carried inside `TilesNew` as already-decoded data.
* `std::collections::hash_map::DefaultHasher` (SipHash-1-3) is modelled by
  an arbitrary function `mix : List Nat → Nat` applied to the exact sequence
  of values the source feeds to the hasher; the spec (§4.4) states the
  concrete algorithm is not semantically load-bearing, only that it is a
  deterministic function of the written data.  `finish() as u32` is the
  value `% 2 ^ 32`.
* Process aborts (`assert!`, `unwrap`, `panic!` in the source) are modelled
  with `Except String`; standard-output lines are modelled as lists of
  strings.  Warnings printed to standard error accompany a normal return
  value in the source and are not part of any modelled value.
* `f32` (`pixelscale`) is never read by the program's logic; the field is
  omitted from the model (floating point carries no claim here).
-/

/-- Rgba pixel, four 8-bit channels (`image::Rgba<u8>`). -/
structure Rgba where
  r : Nat
  g : Nat
  b : Nat
  a : Nat
deriving DecidableEq

/-- Decoded raster image (`image::RgbaImage`): dimensions plus pixel lookup. -/
structure Img where
  width : Nat
  height : Nat
  pix : Nat → Nat → Rgba

/-- Mirror of `SpriteIdWithWeight` (sprite_id_with_weight.rs): a list of
sprite-id alternatives plus an optional weight.  `SingleOrVec<_>` is the
bare list. -/
structure SpriteIdWithWeight where
  id : List Nat
  weight : Option Int
deriving DecidableEq

/-- Mirror of `SingleTile` (main.rs lines 42-57), the expanded-tile record:
id aliases, foreground/background sprite references, optional rotates flag,
multitile/animated flags and 3-D height offset.  Field order matters: the
derived Rust `Ord` compares fields in exactly this declaration order. -/
structure SingleTile where
  id : List String
  fg : List SpriteIdWithWeight
  bg : List SpriteIdWithWeight
  rotates : Option Bool
  multitile : Bool
  animated : Bool
  height_3d : Int
deriving DecidableEq

/-- Mirror of `CompositeTile` (main.rs lines 59-69): a flattened `SingleTile`
base, the additional (sub-)tiles, and a `"//"` comment field. -/
structure CompositeTile where
  base : SingleTile
  additional_tiles : List SingleTile
  comment : String

/-- Mirror of `SingleAscii` (main.rs lines 71-77); never used by the logic. -/
structure SingleAscii where
  offset : Int
  bold : Bool
  color : String

/-- Mirror of `TilesetTileInfo` (main.rs lines 20-29); `pixelscale : f32` is
omitted (never read, floating point).  Only `width`/`height` are consumed. -/
structure TilesetTileInfo where
  iso : Bool
  width : Nat
  height : Nat

instance : Inhabited TilesetTileInfo := ⟨⟨false, 0, 0⟩⟩

/-- Mirror of `OverlayOrderElem` (main.rs lines 35-40); never used by the
comparison logic. -/
structure OverlayOrderElem where
  id : List String
  order : Int

/-- Mirror of `TilesNew` (main.rs lines 79-93), one atlas block: the image
file name, the decoded image it refers to (`ImageReader::open(..).decode()`
in `generate_variations` is image decoding, an external collaborator), the
optional explicit sprite geometry, the compact tile definitions, ascii art
entries and the comment field. -/
structure TilesNew where
  file : String
  img : Img
  sprite_width : Option Nat
  sprite_height : Option Nat
  sprite_offset_x : Option Int
  sprite_offset_y : Option Int
  tiles : List CompositeTile
  ascii : List SingleAscii
  comment : String

/-- Mirror of `Tileset` (main.rs lines 95-105); `base_path` is filesystem
glue and is not part of the model. -/
structure Tileset where
  tile_info : List TilesetTileInfo
  tiles_new : List TilesNew
  overlay_ordering : List OverlayOrderElem

/-- Mirror of `TileAtlas` (main.rs lines 123-131). -/
structure TileAtlas where
  img : Img
  sprite_w : Nat
  sprite_h : Nat
  tiles_x : Nat
  tiles_y : Nat
  tiles_start : Nat
  tiles_end : Nat

/-- `TileAtlas::tiles_total` (main.rs lines 134-136). -/
def TileAtlas.tiles_total (a : TileAtlas) : Nat :=
  a.tiles_x * a.tiles_y

/-- `TileAtlas::in_bounds` (main.rs lines 138-140). -/
def TileAtlas.in_bounds (a : TileAtlas) (tile_id : Nat) : Bool :=
  a.tiles_start ≤ tile_id && tile_id < a.tiles_end

/-- `TileAtlas::get_sprite` (main.rs lines 142-152), reduced to the origin of
the returned `SubImage` view: the sub-rectangle is
`(within_x * sprite_w, within_y * sprite_h, sprite_w, sprite_h)`.
The `u32` subtraction `tile_id - tiles_start` matches `Nat` subtraction on
every in-bounds id (all callers check `in_bounds` first). -/
def TileAtlas.get_sprite (a : TileAtlas) (tile_id : Nat) : Nat × Nat :=
  let id_within_atlas := tile_id - a.tiles_start
  (id_within_atlas % a.tiles_x * a.sprite_w, id_within_atlas / a.tiles_x * a.sprite_h)

/-- Pixel enumeration of a `w`×`h` view of `img` whose top-left corner is
`(ox, oy)`, in the order produced by `GenericImageView::pixels()`: row-major
(y outer, x inner), each item carrying its view-relative coordinates and the
pixel value. -/
def viewPixels (img : Img) (ox oy w h : Nat) : List (Nat × Nat × Rgba) :=
  (List.range h).flatMap fun y =>
    (List.range w).map fun x => (x, y, img.pix (ox + x) (oy + y))

/-- Sequence of values fed to the `DefaultHasher` by
`TileAtlas::get_sprite_hash` (main.rs lines 163-171): the cell width, the
cell height, then for every pixel of the cropped cell (an
`(x, y, Rgba<u8>)` item of `pixels()`) its view coordinates, the length
prefix 4 of the `[u8; 4]` channel array, and the four channel bytes. -/
def TileAtlas.hashStream (a : TileAtlas) (tile_id : Nat) : List Nat :=
  let o := a.get_sprite tile_id
  a.sprite_w :: a.sprite_h ::
    (viewPixels a.img o.1 o.2 a.sprite_w a.sprite_h).flatMap fun p =>
      [p.1, p.2.1, 4, p.2.2.r, p.2.2.g, p.2.2.b, p.2.2.a]

/-- `TileAtlas::get_sprite_hash` (main.rs lines 154-175): out-of-bounds ids
warn and return the sentinel 0; otherwise the hasher digests the cell
dimensions and the cropped pixels and the 64-bit result is truncated to
`u32`.  `mix` stands for the `DefaultHasher` finish (see the header note). -/
def TileAtlas.get_sprite_hash (mix : List Nat → Nat) (a : TileAtlas) (tile_id : Nat) : Nat :=
  if a.in_bounds tile_id then mix (a.hashStream tile_id) % 2 ^ 32 else 0

/-- Free function `get_sprite_hash` (main.rs lines 189-197): scan the atlases
in order, use the first whose range contains the id; if none does, warn and
return the sentinel 0. -/
def get_sprite_hash (mix : List Nat → Nat) : List TileAtlas → Nat → Nat
  | [], _ => 0
  | a :: rest, tile_id =>
    if a.in_bounds tile_id then a.get_sprite_hash mix tile_id
    else get_sprite_hash mix rest tile_id

/-- `hash_sprites` (main.rs lines 199-205): replace every sprite id of every
weighted reference by its multi-atlas content hash. -/
def hash_sprites (mix : List Nat → Nat) (atlases : List TileAtlas)
    (ids : List SpriteIdWithWeight) : List SpriteIdWithWeight :=
  ids.map fun spidw => { spidw with id := spidw.id.map (get_sprite_hash mix atlases) }

/-- Index `self.tile_info[0]` of `generate_variations` (main.rs lines
239-240).  On an empty `tile_info` the source panics; the model totalises
with a default and every theorem that touches atlas construction carries the
hypothesis `ts.tile_info ≠ []`. -/
def firstTileInfo (ts : Tileset) : TilesetTileInfo :=
  ts.tile_info.headI

/-- Effective sprite cell width of one atlas block (main.rs line 239). -/
def effSpriteW (ts : Tileset) (tn : TilesNew) : Nat :=
  tn.sprite_width.getD (firstTileInfo ts).width

/-- Effective sprite cell height of one atlas block (main.rs line 240). -/
def effSpriteH (ts : Tileset) (tn : TilesNew) : Nat :=
  tn.sprite_height.getD (firstTileInfo ts).height

/-- Atlas built for one `tiles-new` block (main.rs lines 251-260):
`tiles_x`/`tiles_y` are the integer divisions of the image dimensions by the
cell size and `tiles_end = tiles_start + tiles_x * tiles_y`. -/
def mkAtlas (ts : Tileset) (start : Nat) (tn : TilesNew) : TileAtlas :=
  let w := effSpriteW ts tn
  let h := effSpriteH ts tn
  let a : TileAtlas :=
    { img := tn.img
      sprite_w := w
      sprite_h := h
      tiles_x := tn.img.width / w
      tiles_y := tn.img.height / h
      tiles_start := start
      tiles_end := start }
  { a with tiles_end := a.tiles_start + a.tiles_total }

/-- Atlas-building loop of `generate_variations` (main.rs lines 231-268) from
a given running id offset. -/
def buildAtlasesFrom (ts : Tileset) : Nat → List TilesNew → List TileAtlas
  | _, [] => []
  | start, tn :: rest =>
    let a := mkAtlas ts start tn
    a :: buildAtlasesFrom ts a.tiles_end rest

/-- All atlases of a tileset, id ranges assigned in declaration order
starting at 0 (main.rs lines 231-268). -/
def Tileset.buildAtlases (ts : Tileset) : List TileAtlas :=
  buildAtlasesFrom ts 0 ts.tiles_new

/-- Conditional sprite-reference rewriting of a clone (main.rs lines 275-278
and 287-290): with `do_hash` set, both sprite lists are rewritten through the
multi-atlas hash lookup. -/
def resolveSprites (mix : List Nat → Nat) (do_hash : Bool) (atlases : List TileAtlas)
    (t : SingleTile) : SingleTile :=
  if do_hash then
    { t with fg := hash_sprites mix atlases t.fg, bg := hash_sprites mix atlases t.bg }
  else t

/-- Rotates-flag derivation of a parent clone (main.rs lines 279-281): an
absent `rotates` becomes `Some(multitile)`. -/
def fixRotates (t : SingleTile) : SingleTile :=
  match t.rotates with
  | none => { t with rotates := some t.multitile }
  | some _ => t

/-- Body of the per-alias expansion loop (main.rs lines 272-298) for one
parent alias `pid`: the synthesized sub-tiles (id `pid ++ "_" ++ sub-alias`,
`rotates` forced to `some true`, `height_3d` copied from the parent clone)
followed by the parent clone itself. -/
def expandOne (mix : List Nat → Nat) (do_hash : Bool) (atlases : List TileAtlas)
    (tile : CompositeTile) (pid : String) : List SingleTile :=
  let cloned := fixRotates (resolveSprites mix do_hash atlases { tile.base with id := [pid] })
  (tile.additional_tiles.flatMap fun sub =>
    sub.id.map fun said =>
      let cloned_at := resolveSprites mix do_hash atlases { sub with id := [pid ++ "_" ++ said] }
      { cloned_at with rotates := some true, height_3d := cloned.height_3d })
  ++ [cloned]

/-- Expansion of one compact tile definition (main.rs lines 272-298), one
batch per parent alias id. -/
def expandTile (mix : List Nat → Nat) (do_hash : Bool) (atlases : List TileAtlas)
    (tile : CompositeTile) : List SingleTile :=
  tile.base.id.flatMap (expandOne mix do_hash atlases tile)

/-- Three-way comparison on `Nat`, the shape of Rust's integer `Ord`. -/
def natCmp (a b : Nat) : Ordering :=
  if a < b then .lt else if b < a then .gt else .eq

/-- Three-way comparison on `Int` (`i32` fields `height_3d` and `weight`). -/
def intCmp (a b : Int) : Ordering :=
  if a < b then .lt else if b < a then .gt else .eq

/-- Rust `bool` ordering: `false < true`. -/
def boolCmp : Bool → Bool → Ordering
  | false, false => .eq
  | false, true => .lt
  | true, false => .gt
  | true, true => .eq

/-- Rust `Option<T>` derived ordering: `None` sorts before `Some`. -/
def optCmp (c : α → α → Ordering) : Option α → Option α → Ordering
  | none, none => .eq
  | none, some _ => .lt
  | some _, none => .gt
  | some a, some b => c a b

/-- Rust slice/`Vec` lexicographic ordering: elementwise, a strict prefix
sorts first. -/
def listCmp (c : α → α → Ordering) : List α → List α → Ordering
  | [], [] => .eq
  | [], _ :: _ => .lt
  | _ :: _, [] => .gt
  | a :: as, b :: bs => (c a b).then (listCmp c as bs)

/-- Character comparison by Unicode code point; on UTF-8 data this is exactly
Rust's byte-wise `str` ordering (UTF-8 is order-preserving). -/
def charCmp (c d : Char) : Ordering :=
  natCmp c.toNat d.toNat

/-- Rust `str`/`String` ordering. -/
def strCmp (a b : String) : Ordering :=
  listCmp charCmp a.data b.data

/-- Derived `Ord` of `SpriteIdWithWeight`: fields in declaration order. -/
def spriteCmp (a b : SpriteIdWithWeight) : Ordering :=
  (listCmp natCmp a.id b.id).then (optCmp intCmp a.weight b.weight)

/-- Derived `Ord` of `SingleTile` (main.rs line 42): lexicographic over the
fields in declaration order, ids first. -/
def tileCmp (a b : SingleTile) : Ordering :=
  (listCmp strCmp a.id b.id).then <|
    (listCmp spriteCmp a.fg b.fg).then <|
      (listCmp spriteCmp a.bg b.bg).then <|
        (optCmp boolCmp a.rotates b.rotates).then <|
          (boolCmp a.multitile b.multitile).then <|
            (boolCmp a.animated b.animated).then (intCmp a.height_3d b.height_3d)

/-- Non-strict order used to sort expanded tiles. -/
def tileLe (a b : SingleTile) : Bool :=
  tileCmp a b != Ordering.gt

/-- Non-strict order used to sort id strings. -/
def strLe (a b : String) : Bool :=
  strCmp a b != Ordering.gt

/-- Ordered insertion into a sorted list. -/
def insertBy (le : α → α → Bool) (a : α) : List α → List α
  | [] => [a]
  | b :: bs => if le a b then a :: b :: bs else b :: insertBy le a bs

/-- Insertion sort.  `Vec::sort` / `sort_unstable` in the source sort by a
total derived `Ord` whose `Equal` outcome coincides with record equality, so
every correct sort produces the same list of values; insertion sort by the
same order is therefore an exact model of the sorted result. -/
def sortBy (le : α → α → Bool) : List α → List α
  | [] => []
  | a :: as => insertBy le a (sortBy le as)

/-- `Tileset::generate_variations` (main.rs lines 224-304) without its
filesystem side effects (scratch-directory wipe and sprite dumps): build the
atlases, expand every compact definition of every atlas block, and sort the
result by the derived tile order.  The returned atlases of the source pair
are available separately as `ts.buildAtlases`. -/
def Tileset.generate_variations (ts : Tileset) (mix : List Nat → Nat) (do_hash : Bool) :
    List SingleTile :=
  sortBy tileLe
    (ts.tiles_new.flatMap fun tn => tn.tiles.flatMap (expandTile mix do_hash ts.buildAtlases))

/-- Primary id of an expanded tile: the source reads `x.id.0[0]`; expanded
tiles always carry exactly one id (an out-of-range index would panic, which
never happens in the pipeline). -/
def tileId (t : SingleTile) : String :=
  t.id.headI

/-- Adjacent-duplicate collection over an already sorted list: the duplicate
suffix produced by `partition_dedup` (main.rs line 315) holds, for every run
of equal elements, all but the first. -/
def dupsAdj : List String → List String
  | a :: b :: rest => if a = b then b :: dupsAdj (b :: rest) else dupsAdj (b :: rest)
  | _ => []

/-- `find_duplicates` (main.rs lines 312-317): sort the primary ids, then
every element equal to its predecessor is a duplicate. -/
def find_duplicates (vars : List SingleTile) : List String :=
  dupsAdj (sortBy strLe (vars.map tileId))

/-- Ids present in the first expansion but not the second (main.rs lines
355-363): the id sets are hash sets (duplicate-free), their difference is
persisted sorted (`dump_exclusives`). -/
def exclusives (v1 v2 : List SingleTile) : List String :=
  sortBy strLe ((v1.map tileId).dedup.filter fun s => !(decide (s ∈ v2.map tileId)))

/-- Full-record difference restricted to shared ids (main.rs lines 365-381):
records of the first expansion absent from the second whose primary id the
second side does have, persisted as sorted ids (`dump_diffs`). -/
def diffIds (v1 v2 : List SingleTile) : List String :=
  sortBy strLe
    ((v1.dedup.filter fun t =>
        !(decide (t ∈ v2)) && decide (tileId t ∈ v2.map tileId)).map tileId)

/-- Artifact values produced by one comparison run: the duplicates lists
(`duplicates.txt`), the id-exclusive lists (`exclusives.txt`) and, when
neither side has duplicate ids, the differing-id lists (`different.txt`,
`none` when the diff step is skipped). -/
structure CompareOutput where
  dups1 : List String
  dups2 : List String
  excl1 : List String
  excl2 : List String
  diff1 : Option (List String)
  diff2 : Option (List String)
deriving DecidableEq

/-- `compare_tilesets` (main.rs lines 338-387) as the values it persists:
expand both sides with hashing, compute both duplicates lists, both
id-exclusive lists, and — only when both duplicates lists are empty — both
restricted full-record diff lists. -/
def compare_tilesets (mix : List Nat → Nat) (ts1 ts2 : Tileset) : CompareOutput :=
  let vars1 := ts1.generate_variations mix true
  let vars2 := ts2.generate_variations mix true
  let dups1 := find_duplicates vars1
  let dups2 := find_duplicates vars2
  let do_diff := dups1.isEmpty && dups2.isEmpty
  { dups1 := dups1
    dups2 := dups2
    excl1 := exclusives vars1 vars2
    excl2 := exclusives vars2 vars1
    diff1 := if do_diff then some (diffIds vars1 vars2) else none
    diff2 := if do_diff then some (diffIds vars2 vars1) else none }

/-- Sprite-reference hashing of one finished tile record; rewriting a clone's
`fg`/`bg` in place (main.rs lines 275-278, 287-290) is exactly this map. -/
def hashTile (mix : List Nat → Nat) (atlases : List TileAtlas) (t : SingleTile) : SingleTile :=
  { t with fg := hash_sprites mix atlases t.fg, bg := hash_sprites mix atlases t.bg }

/-- Lookup in an association list where a later binding overwrites an earlier
one, the behavior of `HashMap::collect` over an iterator with repeated keys
(main.rs lines 408-412). -/
def lookupLast (l : List (String × Nat)) (k : String) : Option Nat :=
  l.foldl (fun acc p => if p.1 = k then some p.2 else acc) none

/-- Record selection of `extract_tiles` for one requested id (main.rs lines
404-425): expand without and with hashing, build the id-to-index map over the
non-hashed list, and emit the hashed record found at the looked-up index.
The sprite-image writes and the JSON serialization are filesystem glue. -/
def extract_record (mix : List Nat → Nat) (ts : Tileset) (id : String) : Option SingleTile :=
  let vars := ts.generate_variations mix false
  let vars_hashed := ts.generate_variations mix true
  let vars_hm := vars.enum.map fun p => (tileId p.2, p.1)
  (lookupLast vars_hm id).bind fun idx => vars_hashed[idx]?

/-- Filesystem view seen by `load_tileset` (main.rs lines 107-121): path
existence, directory-ness, and the outcome of reading and JSON-decoding
`<dir>/tile_config.json` (`none` when reading or decoding fails; file I/O
and JSON decoding are external collaborators, spec §6). -/
structure FileSys where
  pathExists : String → Bool
  pathIsDir : String → Bool
  configOf : String → Option Tileset

/-- `load_tileset` (main.rs lines 107-121).  The three `assert!` calls and
the two `unwrap` calls panic, modelled as `Except.error`; on success the
function wraps the tileset in `Some`.  It can never return `None`. -/
def load_tileset (fs : FileSys) (base_path : String) : Except String (Option Tileset) :=
  if !(fs.pathExists base_path) then
    .error "assertion failed: base_path.exists()"
  else if !(fs.pathIsDir base_path) then
    .error "assertion failed: base_path.is_dir()"
  else if !(fs.pathExists (base_path ++ "/tile_config.json")) then
    .error "assertion failed: base_tile_config.exists()"
  else
    match fs.configOf base_path with
    | none => .error "read or JSON decode of tile_config.json failed (unwrap)"
    | some ts => .ok (some ts)

/-- Observable outcome of one `compare` subcommand run: the standard-output
lines printed before termination, whether the process terminated by panic,
and the comparison artifacts when the comparison ran. -/
structure RunResult where
  printed : List String
  panicked : Bool
  comparison : Option CompareOutput

/-- The `Commands::Compare` arm of `main` (main.rs lines 474-491, 517): load
both tilesets (a panic inside `load_tileset` aborts the run), print
"Aborted." and stop if either returned `None`, otherwise run the comparison.
Standard-error warnings are not part of the modelled output. -/
def mainCompare (mix : List Nat → Nat) (fs : FileSys) (a b : String) : RunResult :=
  let p0 := ["Tileset comparison mode.", "Loading tileset A:  " ++ a]
  match load_tileset fs a with
  | .error _ => { printed := p0, panicked := true, comparison := none }
  | .ok tiles_a =>
    let p1 := p0 ++ ["Loading tileset B: " ++ b]
    match load_tileset fs b with
    | .error _ => { printed := p1, panicked := true, comparison := none }
    | .ok tiles_b =>
      match tiles_a, tiles_b with
      | some ta, some tb =>
        { printed := p1 ++ ["Running comparison...", "Done!"]
          panicked := false
          comparison := some (compare_tilesets mix ta tb) }
      | _, _ => { printed := p1 ++ ["Aborted."], panicked := false, comparison := none }

/-- JSON values, the input domain of the serde-derived deserializers. -/
inductive Json where
  | null
  | bool (b : Bool)
  | num (n : Int)
  | str (s : String)
  | arr (elems : List Json)
  | obj (fields : List (String × Json))

/-- First value bound to a key in a JSON object, serde's field lookup. -/
def getField (kvs : List (String × Json)) (k : String) : Option Json :=
  (kvs.find? fun p => decide (p.1 = k)).map fun p => p.2

/-- Deserialization of a JSON string. -/
def parseJsonString : Json → Except String String
  | .str s => .ok s
  | _ => .error "invalid type: expected a string"

/-- Deserialization of a JSON boolean. -/
def parseJsonBool : Json → Except String Bool
  | .bool b => .ok b
  | _ => .error "invalid type: expected a boolean"

/-- Deserialization of a JSON integer into an `i32` field (`height_3d` and
`weight`): serde rejects numbers outside the `i32` range. -/
def parseJsonInt : Json → Except String Int
  | .num n =>
    if n < -2147483648 then .error "invalid value: out of range for i32"
    else if 2147483647 < n then .error "invalid value: out of range for i32"
    else .ok n
  | _ => .error "invalid type: expected an integer"

/-- Deserialization of one sprite id.  The declared field type is 32-bit
(`i32` in sprite_id_with_weight.rs, consumed as `u32` by every atlas
operation in `main.rs` — see the header note), so serde rejects numbers
outside the 32-bit range; ids are carried as `Nat` in the model, so the
accepted set is `0 ≤ n ≤ 2147483647`, the ids the program can both
deserialize and use. -/
def parseSpriteId : Json → Except String Nat
  | .num n =>
    if n < 0 then .error "invalid value: negative sprite id"
    else if 2147483647 < n then .error "invalid value: out of range for i32"
    else .ok n.toNat
  | _ => .error "invalid type: expected an integer"

/-- `SingleOrVec<T>` deserialization (single_or_vec.rs): the untagged enum
tries the bare `Single` variant on the whole value first, then the `Vector`
variant. -/
def parseSingleOrVec (p : Json → Except String α) (j : Json) : Except String (List α) :=
  match p j with
  | .ok v => .ok [v]
  | .error _ =>
    match j with
    | .arr elems => elems.mapM p
    | _ => .error "data did not match any variant of untagged enum SingleOrVecSource"

/-- `SpriteIdWithWeight` deserialization (sprite_id_with_weight.rs): the
untagged enum first tries `IdOnly` (a bare id or id list), then `WithWeight`,
an object with exactly the fields `weight` and `sprite`. -/
def parseSpriteRef (j : Json) : Except String SpriteIdWithWeight :=
  match parseSingleOrVec parseSpriteId j with
  | .ok ids => .ok { id := ids, weight := none }
  | .error _ =>
    match j with
    | .obj kvs =>
      if !(decide (kvs.map Prod.fst).Nodup) then
        .error "duplicate field"
      else if !(decide (kvs.length = 2)) then
        .error "data did not match any variant of untagged enum SpriteIdSource"
      else
        match getField kvs "weight", getField kvs "sprite" with
        | some wv, some sj =>
          match parseJsonInt wv with
          | .error _ => .error "data did not match any variant of untagged enum SpriteIdSource"
          | .ok w =>
            (parseSingleOrVec parseSpriteId sj).map fun ids => { id := ids, weight := some w }
        | _, _ => .error "data did not match any variant of untagged enum SpriteIdSource"
    | _ => .error "data did not match any variant of untagged enum SpriteIdSource"

/-- Deserialization of the `rotates: Option<bool>` field value (a missing
field is handled by the caller). -/
def parseRotates : Json → Except String (Option Bool)
  | .null => .ok none
  | .bool b => .ok (some b)
  | _ => .error "invalid type: expected a boolean or null"

/-- Optional field with a serde default. -/
def parseFieldD (kvs : List (String × Json)) (k : String) (p : Json → Except String α)
    (dflt : α) : Except String α :=
  match getField kvs k with
  | none => .ok dflt
  | some v => p v

/-- Field names accepted by the `SingleTile` deserializer. -/
def singleTileFields : List String :=
  ["id", "fg", "bg", "rotates", "multitile", "animated", "height_3d"]

/-- `SingleTile` deserialization (main.rs lines 42-57):
`deny_unknown_fields` rejects any key outside the declared field set — in
particular a `"//"` comment or a nested `additional_tiles` — then each field
is read, with serde defaults for the optional ones. -/
def parseSingleTile (j : Json) : Except String SingleTile :=
  match j with
  | .obj kvs =>
    match kvs.find? fun p => !(decide (p.1 ∈ singleTileFields)) with
    | some p => .error ("unknown field " ++ p.1)
    | none =>
      if !(decide (kvs.map Prod.fst).Nodup) then
        .error "duplicate field"
      else
        match getField kvs "id" with
        | none => .error "missing field id"
        | some idv => do
          let ids ← parseSingleOrVec parseJsonString idv
          let fgv ← parseFieldD kvs "fg" (parseSingleOrVec parseSpriteRef) []
          let bgv ← parseFieldD kvs "bg" (parseSingleOrVec parseSpriteRef) []
          let rot ← parseFieldD kvs "rotates" parseRotates none
          let mt ← parseFieldD kvs "multitile" parseJsonBool false
          let an ← parseFieldD kvs "animated" parseJsonBool false
          let h3 ← parseFieldD kvs "height_3d" parseJsonInt 0
          pure
            { id := ids, fg := fgv, bg := bgv, rotates := rot
              multitile := mt, animated := an, height_3d := h3 }
  | _ => .error "invalid type: expected an object"

/-- Field names the `CompositeTile` deserializer handles itself. -/
def compositeOwnFields : List String :=
  ["additional_tiles", "//"]

/-- `CompositeTile` deserialization (main.rs lines 59-69): the struct's own
fields are `additional_tiles` (a list parsed element-wise by the
`SingleTile` deserializer) and the `"//"` comment; the `#[serde(flatten)]`
base receives every remaining field.  serde leaves the combination of
`flatten` with `deny_unknown_fields` unspecified; the model follows the
spec's strict-parsing contract (§4.3, §6): the keys not consumed here are
fed to the flattened `SingleTile` deserializer, which rejects unknown ones. -/
def parseCompositeTile (j : Json) : Except String CompositeTile :=
  match j with
  | .obj kvs =>
    if !(decide (kvs.map Prod.fst).Nodup) then
      .error "duplicate field"
    else do
      let ats ←
        match getField kvs "additional_tiles" with
        | none => pure []
        | some (.arr elems) => elems.mapM parseSingleTile
        | some _ => throw "invalid type: expected a sequence for additional_tiles"
      let c ←
        match getField kvs "//" with
        | none => pure ""
        | some (.str s) => pure s
        | some _ => throw "invalid type: expected a string for //"
      let base ← parseSingleTile (.obj (kvs.filter fun p => !(decide (p.1 ∈ compositeOwnFields))))
      pure { base := base, additional_tiles := ats, comment := c }
  | _ => .error "invalid type: expected an object"

/-! ### Concrete fixtures used by the witness theorems -/

/-- Single constant pixel value. -/
def constPix : Rgba := ⟨7, 7, 7, 255⟩

/-- Concrete 2-by-1 image of constant pixels. -/
def imgA : Img := ⟨2, 1, fun _ _ => constPix⟩

/-- Concrete 1-by-1 image of constant pixels. -/
def imgB : Img := ⟨1, 1, fun _ _ => constPix⟩

/-- Concrete additional (sub-)tile named `corner`, with an explicit
`rotates = Some false` and its own nonzero height. -/
def cornerSub : SingleTile :=
  { id := ["corner"], fg := [⟨[1], none⟩], bg := [], rotates := some false
    multitile := true, animated := false, height_3d := 3 }

/-- Concrete compact definition named `wall` carrying `cornerSub`. -/
def wallTile : CompositeTile :=
  { base :=
      { id := ["wall"], fg := [⟨[0], none⟩], bg := [], rotates := none
        multitile := false, animated := false, height_3d := 7 }
    additional_tiles := [cornerSub]
    comment := "" }

/-- Concrete atlas block over `imgA` declaring `wallTile`. -/
def tnA : TilesNew :=
  { file := "a.png", img := imgA, sprite_width := some 1, sprite_height := some 1
    sprite_offset_x := none, sprite_offset_y := none, tiles := [wallTile]
    ascii := [], comment := "" }

/-- Concrete one-atlas tileset. -/
def tsA : Tileset :=
  { tile_info := [⟨false, 1, 1⟩], tiles_new := [tnA], overlay_ordering := [] }

/-- Concrete compact definition also named `wall` but with different content
(height 9, no sub-tiles). -/
def wallTileB : CompositeTile :=
  { base :=
      { id := ["wall"], fg := [⟨[0], none⟩], bg := [], rotates := some true
        multitile := false, animated := false, height_3d := 9 }
    additional_tiles := []
    comment := "" }

/-- Concrete atlas block over `imgB` declaring `wallTileB`. -/
def tnB : TilesNew :=
  { file := "b.png", img := imgB, sprite_width := some 1, sprite_height := some 1
    sprite_offset_x := none, sprite_offset_y := none, tiles := [wallTileB]
    ascii := [], comment := "" }

/-- Concrete second tileset sharing the id `wall` with `tsA` under different
content. -/
def tsB : Tileset :=
  { tile_info := [⟨false, 1, 1⟩], tiles_new := [tnB], overlay_ordering := [] }

/-- Concrete tileset with a duplicated primary id `x`. -/
def tsD : Tileset :=
  { tile_info := [⟨false, 1, 1⟩]
    tiles_new :=
      [{ file := "d.png", img := imgB, sprite_width := some 1, sprite_height := some 1
         sprite_offset_x := none, sprite_offset_y := none
         tiles :=
           [{ base :=
                { id := ["x"], fg := [], bg := [], rotates := none
                  multitile := false, animated := false, height_3d := 0 }
              additional_tiles := []
              comment := "" },
            { base :=
                { id := ["x"], fg := [], bg := [], rotates := none
                  multitile := false, animated := false, height_3d := 5 }
              additional_tiles := []
              comment := "" }]
         ascii := [], comment := "" }]
    overlay_ordering := [] }

/-- Concrete atlas over `imgA`: 1-by-1 cells, global ids 0 and 1. -/
def atlasA : TileAtlas := ⟨imgA, 1, 1, 2, 1, 0, 2⟩

/-- Concrete atlas over `imgB`: one 1-by-1 cell, global id 5. -/
def atlasB : TileAtlas := ⟨imgB, 1, 1, 1, 1, 5, 6⟩

/-- Concrete filesystem on which every path is missing. -/
def fsEmpty : FileSys := ⟨fun _ => false, fun _ => false, fun _ => none⟩

/-- Concrete configuration value: a tile entry whose additional tile carries
only fields documented for tile entries, among them the `"//"` comment. -/
def cfgSubComment : Json :=
  .obj [("id", .str "wall"),
        ("additional_tiles", .arr [.obj [("id", .str "corner"), ("//", .str "note")]])]

/-- The same configuration without the comment inside the additional tile. -/
def cfgSubPlain : Json :=
  .obj [("id", .str "wall"),
        ("additional_tiles", .arr [.obj [("id", .str "corner")]])]

/-- Concrete stand-in for the hasher finish: sums the written values. -/
def sumMix : List Nat → Nat := List.sum


/-! ### Laws of the derived comparators and of sorting -/

theorem natCmp_eq_iff {a b : Nat} : natCmp a b = .eq ↔ a = b := by
  unfold natCmp
  split
  · simp_all
    omega
  · split
    · simp_all
      omega
    · simp_all
      omega

theorem natCmp_swap (a b : Nat) : (natCmp a b).swap = natCmp b a := by
  unfold natCmp
  rcases Nat.lt_trichotomy a b with h | h | h
  · simp [h, Nat.lt_asymm h, Ordering.swap]
  · subst h
    simp [Nat.lt_irrefl, Ordering.swap]
  · simp [h, Nat.lt_asymm h, Ordering.swap]

theorem natCmp_lt_trans {a b c : Nat} (h1 : natCmp a b = .lt) (h2 : natCmp b c = .lt) :
    natCmp a c = .lt := by
  unfold natCmp at h1 h2 ⊢
  split
  · rfl
  · split at h1 <;> split at h2 <;> simp_all <;> omega

theorem charCmp_eq_iff {c d : Char} : charCmp c d = .eq ↔ c = d := by
  unfold charCmp
  rw [natCmp_eq_iff]
  constructor
  · intro h
    exact Char.ext (UInt32.ext h)
  · intro h
    rw [h]

theorem charCmp_swap (c d : Char) : (charCmp c d).swap = charCmp d c :=
  natCmp_swap _ _

theorem charCmp_lt_trans {c d e : Char} (h1 : charCmp c d = .lt) (h2 : charCmp d e = .lt) :
    charCmp c e = .lt :=
  natCmp_lt_trans h1 h2

theorem listCmp_eq_iff {c : α → α → Ordering} (hc : ∀ a b, c a b = .eq ↔ a = b) :
    ∀ l1 l2 : List α, listCmp c l1 l2 = .eq ↔ l1 = l2
  | [], [] => by simp [listCmp]
  | [], _ :: _ => by simp [listCmp]
  | _ :: _, [] => by simp [listCmp]
  | a :: as, b :: bs => by
    simp only [listCmp]
    constructor
    · intro h
      have hab : c a b = .eq := by
        cases hcv : c a b <;> rw [hcv] at h <;> simp [Ordering.then] at h ⊢
      have : listCmp c as bs = .eq := by
        rw [hab] at h
        simpa [Ordering.then] using h
      rw [(hc a b).mp hab, ((listCmp_eq_iff hc as bs).mp this)]
    · intro h
      cases h
      rw [(hc a a).mpr rfl]
      simp [Ordering.then]
      exact (listCmp_eq_iff hc as as).mpr rfl

theorem listCmp_swap {c : α → α → Ordering} (hc : ∀ a b, (c a b).swap = c b a) :
    ∀ l1 l2 : List α, (listCmp c l1 l2).swap = listCmp c l2 l1
  | [], [] => rfl
  | [], _ :: _ => rfl
  | _ :: _, [] => rfl
  | a :: as, b :: bs => by
    simp only [listCmp]
    rw [← hc a b, ← listCmp_swap hc as bs]
    cases c a b <;> simp [Ordering.then, Ordering.swap]

theorem listCmp_le_trans {c : α → α → Ordering} (hc : ∀ a b, c a b = .eq ↔ a = b)
    (ht : ∀ a b d, c a b = .lt → c b d = .lt → c a d = .lt) :
    ∀ l1 l2 l3 : List α, listCmp c l1 l2 ≠ .gt → listCmp c l2 l3 ≠ .gt →
      listCmp c l1 l3 ≠ .gt
  | [], l2, l3 => by intro _ _; cases l3 <;> simp [listCmp]
  | _ :: _, [], _ => by intro h _; simp [listCmp] at h
  | _ :: _, _ :: _, [] => by intro _ h; simp [listCmp] at h
  | a :: as, b :: bs, d :: ds => by
    intro h1 h2
    simp only [listCmp] at h1 h2 ⊢
    cases hab : c a b with
    | gt => rw [hab] at h1; simp [Ordering.then] at h1
    | lt =>
      cases hbd : c b d with
      | gt => rw [hbd] at h2; simp [Ordering.then] at h2
      | lt => rw [ht a b d hab hbd]; simp [Ordering.then]
      | eq =>
        have : b = d := (hc b d).mp hbd
        subst this
        rw [hab]
        simp [Ordering.then]
    | eq =>
      have hab2 : a = b := (hc a b).mp hab
      subst hab2
      rw [hab] at h1
      simp only [Ordering.then] at h1
      cases hbd : c a d with
      | gt =>
        rw [hbd] at h2
        simp [Ordering.then] at h2
      | lt => simp [Ordering.then]
      | eq =>
        rw [hbd] at h2
        simp only [Ordering.then] at h2 ⊢
        exact listCmp_le_trans hc ht as bs ds h1 h2

theorem strCmp_eq_iff {a b : String} : strCmp a b = .eq ↔ a = b := by
  unfold strCmp
  rw [listCmp_eq_iff (fun _ _ => charCmp_eq_iff)]
  constructor
  · exact String.ext
  · intro h
    rw [h]

theorem strCmp_swap (a b : String) : (strCmp a b).swap = strCmp b a :=
  listCmp_swap charCmp_swap _ _

theorem strCmp_le_trans {a b c : String} (h1 : strCmp a b ≠ .gt) (h2 : strCmp b c ≠ .gt) :
    strCmp a c ≠ .gt :=
  listCmp_le_trans (fun _ _ => charCmp_eq_iff) (fun _ _ _ => charCmp_lt_trans) _ _ _ h1 h2


theorem strLe_iff {a b : String} : strLe a b = true ↔ strCmp a b ≠ .gt := by
  unfold strLe
  cases strCmp a b <;> decide

theorem strLe_total (a b : String) : strLe a b = true ∨ strLe b a = true := by
  rw [strLe_iff, strLe_iff]
  cases h : strCmp a b with
  | lt => left; simp
  | eq => left; simp
  | gt =>
    right
    have := strCmp_swap a b
    rw [h] at this
    rw [← this]
    simp [Ordering.swap]

theorem strLe_antisymm {a b : String} (h1 : strLe a b = true) (h2 : strLe b a = true) :
    a = b := by
  rw [strLe_iff] at h1 h2
  have hs := strCmp_swap a b
  cases h : strCmp a b with
  | lt =>
    rw [h] at hs
    rw [← hs] at h2
    simp [Ordering.swap] at h2
  | eq => exact strCmp_eq_iff.mp h
  | gt => exact absurd h h1

theorem strLe_trans {a b c : String} (h1 : strLe a b = true) (h2 : strLe b c = true) :
    strLe a c = true := by
  rw [strLe_iff] at h1 h2 ⊢
  exact strCmp_le_trans h1 h2

theorem insertBy_perm (le : α → α → Bool) (a : α) :
    ∀ l : List α, (insertBy le a l).Perm (a :: l)
  | [] => List.Perm.refl _
  | b :: bs => by
    unfold insertBy
    split
    · exact List.Perm.refl _
    · exact ((insertBy_perm le a bs).cons b).trans (List.Perm.swap a b bs)

theorem sortBy_perm (le : α → α → Bool) : ∀ l : List α, (sortBy le l).Perm l
  | [] => List.Perm.refl _
  | a :: as => (insertBy_perm le a (sortBy le as)).trans ((sortBy_perm le as).cons a)

theorem chain'_insertBy {le : α → α → Bool} (tot : ∀ a b, le a b = true ∨ le b a = true)
    (a : α) :
    ∀ l : List α, List.Chain' (fun x y => le x y = true) l →
      List.Chain' (fun x y => le x y = true) (insertBy le a l) ∧
        ∀ x, (insertBy le a l).head? = some x → x = a ∨ l.head? = some x
  | [], _ => by
    constructor
    · exact List.chain'_singleton a
    · intro x hx
      simp [insertBy] at hx
      exact Or.inl hx.symm
  | b :: bs, h => by
    unfold insertBy
    split
    · constructor
      · exact List.chain'_cons'.mpr ⟨fun y hy => by simp at hy; cases hy; assumption, h⟩
      · intro x hx
        simp at hx
        exact Or.inl hx.symm
    · have hba : le b a = true := by
        rcases tot a b with htot | htot
        · simp_all
        · exact htot
      have ih := chain'_insertBy tot a bs (List.Chain'.tail h)
      constructor
      · refine List.chain'_cons'.mpr ⟨?_, ih.1⟩
        intro y hy
        rcases ih.2 y hy with rfl | hy'
        · exact hba
        · exact (List.chain'_cons'.mp h).1 y hy'
      · intro x hx
        simp at hx
        exact Or.inr (by simp [hx])

theorem chain'_sortBy {le : α → α → Bool} (tot : ∀ a b, le a b = true ∨ le b a = true) :
    ∀ l : List α, List.Chain' (fun x y => le x y = true) (sortBy le l)
  | [] => List.chain'_nil
  | a :: as => (chain'_insertBy tot a (sortBy le as) (chain'_sortBy tot as)).1

theorem nodup_of_pairwise_chain {le' : α → α → Prop}
    (hanti : ∀ a b, le' a b → le' b a → a = b) :
    ∀ l : List α, List.Pairwise le' l → List.Chain' (fun x y => x ≠ y) l → l.Nodup
  | [], _, _ => List.nodup_nil
  | a :: l, hp, hc => by
    rw [List.nodup_cons]
    have hp' := (List.pairwise_cons.mp hp)
    refine ⟨?_, nodup_of_pairwise_chain hanti l hp'.2 (List.Chain'.tail hc)⟩
    intro hmem
    cases l with
    | nil => simp at hmem
    | cons b l' =>
      have hab : a ≠ b := (List.chain'_cons.mp hc).1
      rcases List.mem_cons.mp hmem with rfl | hmem'
      · exact hab rfl
      · have h1 : le' a b := hp'.1 b (List.mem_cons_self b l')
        have h2 : le' b a :=
          (List.pairwise_cons.mp hp'.2).1 a hmem'
        exact hab (hanti a b h1 h2)

theorem dupsAdj_eq_nil_iff : ∀ l : List String, dupsAdj l = [] ↔ List.Chain' (fun x y => x ≠ y) l
  | [] => by simp [dupsAdj]
  | [a] => by simp [dupsAdj]
  | a :: b :: rest => by
    unfold dupsAdj
    split
    · rename_i heq
      subst heq
      simp [List.chain'_cons]
    · rename_i hne
      rw [dupsAdj_eq_nil_iff (b :: rest), List.chain'_cons]
      simp [hne]

theorem sorted_dups_nil_iff (l : List String) :
    dupsAdj (sortBy strLe l) = [] ↔ l.Nodup := by
  rw [dupsAdj_eq_nil_iff]
  constructor
  · intro hchain
    have hsorted := chain'_sortBy strLe_total l
    have hpair : List.Pairwise (fun a b => strLe a b = true) (sortBy strLe l) :=
      (@List.chain'_iff_pairwise String (fun a b => strLe a b = true)
        ⟨fun _ _ _ => strLe_trans⟩ (sortBy strLe l)).mp hsorted
    have : (sortBy strLe l).Nodup :=
      nodup_of_pairwise_chain (fun _ _ => strLe_antisymm) _ hpair hchain
    exact ((sortBy_perm strLe l).nodup_iff).mp this
  · intro hnd
    have : (sortBy strLe l).Nodup := ((sortBy_perm strLe l).nodup_iff).mpr hnd
    exact List.Pairwise.chain' this

/-! ### Structure of the expanded records -/

theorem find_duplicates_eq_nil_iff (v : List SingleTile) :
    find_duplicates v = [] ↔ (v.map tileId).Nodup :=
  sorted_dups_nil_iff (v.map tileId)

theorem height_parent_clone (mix : List Nat → Nat) (dh : Bool) (atl : List TileAtlas)
    (t : SingleTile) : (fixRotates (resolveSprites mix dh atl t)).height_3d = t.height_3d := by
  cases dh <;> cases hb : t.rotates <;> simp [resolveSprites, fixRotates, hb]

theorem mem_generate_variations {mix : List Nat → Nat} {dh : Bool} {ts : Tileset}
    {t : SingleTile} {tn : TilesNew} {tile : CompositeTile} (htn : tn ∈ ts.tiles_new)
    (htile : tile ∈ tn.tiles) (h : t ∈ expandTile mix dh ts.buildAtlases tile) :
    t ∈ ts.generate_variations mix dh := by
  unfold Tileset.generate_variations
  rw [(sortBy_perm tileLe _).mem_iff]
  exact List.mem_flatMap.mpr ⟨tn, htn, List.mem_flatMap.mpr ⟨tile, htile, h⟩⟩

theorem count_le_count_map {α β : Type} [DecidableEq α] [DecidableEq β] (f : α → β) (a : α) :
    ∀ l : List α, l.count a ≤ (l.map f).count (f a)
  | [] => Nat.le_refl 0
  | b :: t => by
    simp only [List.map_cons, List.count_cons]
    have ih := count_le_count_map f a t
    by_cases h : b = a
    · subst h
      have e1 : (b == b) = true := beq_self_eq_true b
      have e2 : (f b == f b) = true := beq_self_eq_true (f b)
      rw [if_pos e1, if_pos e2]
      omega
    · have hba : ¬((b == a) = true) := by
        simp [beq_eq_false_iff_ne.mpr h]
      rw [if_neg hba]
      split <;> omega

theorem count_eq_one_of_mem_of_nodup_ids {l : List SingleTile} {t : SingleTile}
    (hmem : t ∈ l) (hnd : (l.map tileId).Nodup) : l.count t = 1 := by
  have h1 : 0 < l.count t := List.count_pos_iff.mpr hmem
  have h2 : l.count t ≤ (l.map tileId).count (tileId t) := count_le_count_map tileId t l
  have h3 : (l.map tileId).count (tileId t) ≤ 1 := List.nodup_iff_count_le_one.mp hnd _
  omega

/-! ### Claims C1 and C5: composite synthesis and the rotates default -/

/-- C1: for every compact tile definition, each additional (sub-)tile alias
paired with each parent alias yields a synthesized expanded tile whose id is
the parent alias, an underscore, then the sub-tile alias, whose `rotates` is
`some true` regardless of the sub-tile's own authored value, and whose
`height_3d` is the parent clone's (the sub-tile's own height is discarded);
when the expanded ids are duplicate-free the synthesized tile occurs exactly
once. -/
theorem c1_composite_synthesis (mix : List Nat → Nat) (do_hash : Bool) (ts : Tileset)
    (tn : TilesNew) (tile : CompositeTile) (pid : String) (sub : SingleTile) (said : String)
    (hinfo : ts.tile_info ≠ []) (htn : tn ∈ ts.tiles_new) (htile : tile ∈ tn.tiles)
    (hpid : pid ∈ tile.base.id) (hsub : sub ∈ tile.additional_tiles) (hsaid : said ∈ sub.id) :
    ({ id := [pid ++ "_" ++ said]
       fg := if do_hash then hash_sprites mix ts.buildAtlases sub.fg else sub.fg
       bg := if do_hash then hash_sprites mix ts.buildAtlases sub.bg else sub.bg
       rotates := some true
       multitile := sub.multitile
       animated := sub.animated
       height_3d := tile.base.height_3d } : SingleTile) ∈ ts.generate_variations mix do_hash ∧
      (((ts.generate_variations mix do_hash).map tileId).Nodup →
        (ts.generate_variations mix do_hash).count
          { id := [pid ++ "_" ++ said]
            fg := if do_hash then hash_sprites mix ts.buildAtlases sub.fg else sub.fg
            bg := if do_hash then hash_sprites mix ts.buildAtlases sub.bg else sub.bg
            rotates := some true
            multitile := sub.multitile
            animated := sub.animated
            height_3d := tile.base.height_3d } = 1) := by
  refine (fun hmem => ⟨hmem, fun hnd => count_eq_one_of_mem_of_nodup_ids hmem hnd⟩) ?_
  refine mem_generate_variations htn htile ?_
  unfold expandTile
  refine List.mem_flatMap.mpr ⟨pid, hpid, ?_⟩
  unfold expandOne
  refine List.mem_append.mpr (Or.inl ?_)
  refine List.mem_flatMap.mpr ⟨sub, hsub, ?_⟩
  refine List.mem_map.mpr ⟨said, hsaid, ?_⟩
  rw [height_parent_clone]
  cases do_hash <;> simp [resolveSprites, hash_sprites]

/-- C1 witness: in the concrete tileset `tsA` the tile `wall` with sub-tile
`corner` yields `wall_corner`, rotating, with the parent's height 7, exactly
once. -/
theorem c1_composite_synthesis_witness :
    ({ id := ["wall_corner"], fg := [⟨[1], none⟩], bg := [], rotates := some true
       multitile := true, animated := false, height_3d := 7 } : SingleTile)
        ∈ tsA.generate_variations sumMix false ∧
      (tsA.generate_variations sumMix false).count
        { id := ["wall_corner"], fg := [⟨[1], none⟩], bg := [], rotates := some true
          multitile := true, animated := false, height_3d := 7 } = 1 := by
  have h := c1_composite_synthesis sumMix false tsA tnA wallTile "wall" cornerSub "corner"
    (by simp [tsA]) (by simp [tsA]) (by simp [tnA]) (by simp [wallTile])
    (by simp [wallTile]) (by simp [cornerSub])
  exact ⟨h.1, h.2 (by decide)⟩

/-- C5: every expanded tile produced from a definition's own alias ids keeps
an explicitly authored `rotates` flag and otherwise derives it as the
`multitile` flag; when the expanded ids are duplicate-free the clone occurs
exactly once. -/
theorem c5_rotates_default (mix : List Nat → Nat) (do_hash : Bool) (ts : Tileset)
    (tn : TilesNew) (tile : CompositeTile) (pid : String)
    (hinfo : ts.tile_info ≠ []) (htn : tn ∈ ts.tiles_new) (htile : tile ∈ tn.tiles)
    (hpid : pid ∈ tile.base.id) :
    ({ id := [pid]
       fg := if do_hash then hash_sprites mix ts.buildAtlases tile.base.fg else tile.base.fg
       bg := if do_hash then hash_sprites mix ts.buildAtlases tile.base.bg else tile.base.bg
       rotates := some
         (match tile.base.rotates with
          | none => tile.base.multitile
          | some r => r)
       multitile := tile.base.multitile
       animated := tile.base.animated
       height_3d := tile.base.height_3d } : SingleTile) ∈ ts.generate_variations mix do_hash ∧
      (((ts.generate_variations mix do_hash).map tileId).Nodup →
        (ts.generate_variations mix do_hash).count
          { id := [pid]
            fg := if do_hash then hash_sprites mix ts.buildAtlases tile.base.fg else tile.base.fg
            bg := if do_hash then hash_sprites mix ts.buildAtlases tile.base.bg else tile.base.bg
            rotates := some
              (match tile.base.rotates with
               | none => tile.base.multitile
               | some r => r)
            multitile := tile.base.multitile
            animated := tile.base.animated
            height_3d := tile.base.height_3d } = 1) := by
  refine (fun hmem => ⟨hmem, fun hnd => count_eq_one_of_mem_of_nodup_ids hmem hnd⟩) ?_
  refine mem_generate_variations htn htile ?_
  unfold expandTile
  refine List.mem_flatMap.mpr ⟨pid, hpid, ?_⟩
  unfold expandOne
  refine List.mem_append.mpr (Or.inr ?_)
  refine List.mem_singleton.mpr ?_
  cases do_hash <;> cases hb : tile.base.rotates <;>
    simp [resolveSprites, fixRotates, hash_sprites, hb]

/-- C5 witness: in `tsA` the tile `wall` (no explicit rotates,
`multitile = false`) expands with `rotates = some false`, exactly once;
its sub-tile `cornerSub` keeps no influence on it. -/
theorem c5_rotates_default_witness :
    ({ id := ["wall"], fg := [⟨[0], none⟩], bg := [], rotates := some false
       multitile := false, animated := false, height_3d := 7 } : SingleTile)
        ∈ tsA.generate_variations sumMix false ∧
      (tsA.generate_variations sumMix false).count
        { id := ["wall"], fg := [⟨[0], none⟩], bg := [], rotates := some false
          multitile := false, animated := false, height_3d := 7 } = 1 := by
  have h := c5_rotates_default sumMix false tsA tnA wallTile "wall"
    (by simp [tsA]) (by simp [tsA]) (by simp [tnA]) (by simp [wallTile])
  exact ⟨h.1, h.2 (by decide)⟩

/-! ### Claims C6 and C7: multi-atlas lookup and atlas id ranges -/

theorem get_sprite_hash_all_oob (mix : List Nat → Nat) (tile_id : Nat) :
    ∀ atlases : List TileAtlas, (∀ a ∈ atlases, a.in_bounds tile_id = false) →
      get_sprite_hash mix atlases tile_id = 0
  | [], _ => rfl
  | a :: rest, h => by
    unfold get_sprite_hash
    rw [h a (List.mem_cons_self a rest)]
    simp only [Bool.false_eq_true, if_false]
    exact get_sprite_hash_all_oob mix tile_id rest fun b hb => h b (List.mem_cons_of_mem a hb)

theorem get_sprite_hash_first_match (mix : List Nat → Nat) (tile_id : Nat) (a : TileAtlas)
    (post : List TileAtlas) :
    ∀ pre : List TileAtlas, (∀ b ∈ pre, b.in_bounds tile_id = false) →
      a.in_bounds tile_id = true →
      get_sprite_hash mix (pre ++ a :: post) tile_id = a.get_sprite_hash mix tile_id
  | [], _, ha => by
    rw [List.nil_append]
    unfold get_sprite_hash
    rw [ha]
    simp
  | b :: pre, h, ha => by
    rw [List.cons_append]
    unfold get_sprite_hash
    rw [h b (List.mem_cons_self b pre)]
    simp only [Bool.false_eq_true, if_false]
    exact get_sprite_hash_first_match mix tile_id a post pre
      (fun x hx => h x (List.mem_cons_of_mem b hx)) ha

/-- C6: a sprite id outside the id range of every atlas makes the multi-atlas
hash lookup return the sentinel 0 (with a warning, never a panic), and an id
inside some range is served by the first atlas, in declaration order, whose
range contains it. -/
theorem c6_multi_atlas_lookup (mix : List Nat → Nat) (atlases : List TileAtlas)
    (tile_id : Nat) :
    ((∀ a ∈ atlases, a.in_bounds tile_id = false) →
        get_sprite_hash mix atlases tile_id = 0) ∧
      (∀ (pre : List TileAtlas) (a : TileAtlas) (post : List TileAtlas),
        atlases = pre ++ a :: post → (∀ b ∈ pre, b.in_bounds tile_id = false) →
        a.in_bounds tile_id = true →
        get_sprite_hash mix atlases tile_id = a.get_sprite_hash mix tile_id) :=
  ⟨fun h => get_sprite_hash_all_oob mix tile_id atlases h,
   fun pre a post heq h1 h2 => by
    rw [heq]
    exact get_sprite_hash_first_match mix tile_id a post pre h1 h2⟩

/-- C6 witness: with the concrete atlases (ranges 0..2 and 5..6) id 9 hashes
to the sentinel 0 and id 5 is served by the second atlas. -/
theorem c6_multi_atlas_lookup_witness :
    get_sprite_hash sumMix [atlasA, atlasB] 9 = 0 ∧
      get_sprite_hash sumMix [atlasA, atlasB] 5 = atlasB.get_sprite_hash sumMix 5 := by
  constructor
  · exact (c6_multi_atlas_lookup sumMix [atlasA, atlasB] 9).1 (by decide)
  · exact (c6_multi_atlas_lookup sumMix [atlasA, atlasB] 5).2 [atlasA] atlasB [] rfl
      (by decide) (by decide)

theorem buildAtlasesFrom_length (ts : Tileset) :
    ∀ (l : List TilesNew) (start : Nat), (buildAtlasesFrom ts start l).length = l.length
  | [], _ => rfl
  | tn :: rest, start => by
    unfold buildAtlasesFrom
    simp [buildAtlasesFrom_length ts rest]

theorem buildAtlasesFrom_head_start (ts : Tileset) :
    ∀ (l : List TilesNew) (start : Nat) (h0 : 0 < (buildAtlasesFrom ts start l).length),
      ((buildAtlasesFrom ts start l).get ⟨0, h0⟩).tiles_start = start
  | [], _, h0 => by simp [buildAtlasesFrom] at h0
  | _ :: _, _, _ => rfl

theorem buildAtlasesFrom_end_eq (ts : Tileset) :
    ∀ (l : List TilesNew) (start i : Nat) (hi : i < (buildAtlasesFrom ts start l).length)
      (hi' : i < l.length),
      ((buildAtlasesFrom ts start l).get ⟨i, hi⟩).tiles_end =
        ((buildAtlasesFrom ts start l).get ⟨i, hi⟩).tiles_start +
          ((l.get ⟨i, hi'⟩).img.width / effSpriteW ts (l.get ⟨i, hi'⟩)) *
            ((l.get ⟨i, hi'⟩).img.height / effSpriteH ts (l.get ⟨i, hi'⟩))
  | [], _, i, hi, _ => by simp [buildAtlasesFrom] at hi
  | tn :: rest, start, 0, _, _ => rfl
  | tn :: rest, start, i + 1, hi, hi' =>
    buildAtlasesFrom_end_eq ts rest (mkAtlas ts start tn).tiles_end i
      (by simpa [buildAtlasesFrom] using hi) (by simpa using hi')

theorem buildAtlasesFrom_adjacent (ts : Tileset) :
    ∀ (l : List TilesNew) (start i : Nat) (h1 : i + 1 < (buildAtlasesFrom ts start l).length)
      (h2 : i < (buildAtlasesFrom ts start l).length),
      ((buildAtlasesFrom ts start l).get ⟨i + 1, h1⟩).tiles_start =
        ((buildAtlasesFrom ts start l).get ⟨i, h2⟩).tiles_end
  | [], _, i, h1, _ => by simp [buildAtlasesFrom] at h1
  | tn :: rest, start, 0, h1, _ =>
    buildAtlasesFrom_head_start ts rest (mkAtlas ts start tn).tiles_end
      (by simpa [buildAtlasesFrom] using h1)
  | tn :: rest, start, i + 1, h1, h2 =>
    buildAtlasesFrom_adjacent ts rest (mkAtlas ts start tn).tiles_end i
      (by simpa [buildAtlasesFrom] using h1) (by simpa [buildAtlasesFrom] using h2)

/-- C7: after the atlas-building pass the id ranges partition `[0, total)`:
one atlas per `tiles-new` block in declaration order, the first starting at
0, each ending at its start plus `tilesX * tilesY` (the integer divisions of
the image dimensions by the effective cell size), and each subsequent atlas
starting where the previous one ends. -/
theorem c7_atlas_ranges (ts : Tileset) (hinfo : ts.tile_info ≠ []) :
    (ts.buildAtlases).length = ts.tiles_new.length ∧
      (∀ h0 : 0 < (ts.buildAtlases).length, ((ts.buildAtlases).get ⟨0, h0⟩).tiles_start = 0) ∧
      (∀ (i : Nat) (hi : i < (ts.buildAtlases).length) (hi' : i < ts.tiles_new.length),
        ((ts.buildAtlases).get ⟨i, hi⟩).tiles_end =
          ((ts.buildAtlases).get ⟨i, hi⟩).tiles_start +
            ((ts.tiles_new.get ⟨i, hi'⟩).img.width / effSpriteW ts (ts.tiles_new.get ⟨i, hi'⟩)) *
              ((ts.tiles_new.get ⟨i, hi'⟩).img.height /
                effSpriteH ts (ts.tiles_new.get ⟨i, hi'⟩))) ∧
      (∀ (i : Nat) (h1 : i + 1 < (ts.buildAtlases).length) (h2 : i < (ts.buildAtlases).length),
        ((ts.buildAtlases).get ⟨i + 1, h1⟩).tiles_start =
          ((ts.buildAtlases).get ⟨i, h2⟩).tiles_end) :=
  ⟨buildAtlasesFrom_length ts ts.tiles_new 0,
   fun h0 => buildAtlasesFrom_head_start ts ts.tiles_new 0 h0,
   fun i hi hi' => buildAtlasesFrom_end_eq ts ts.tiles_new 0 i hi hi',
   fun i h1 h2 => buildAtlasesFrom_adjacent ts ts.tiles_new 0 i h1 h2⟩

/-- C7 witness: the concrete tileset `tsA` instantiates the range
invariants. -/
theorem c7_atlas_ranges_witness :
    (tsA.buildAtlases).length = tsA.tiles_new.length ∧
      (∀ h0 : 0 < (tsA.buildAtlases).length, ((tsA.buildAtlases).get ⟨0, h0⟩).tiles_start = 0) ∧
      (∀ (i : Nat) (hi : i < (tsA.buildAtlases).length) (hi' : i < tsA.tiles_new.length),
        ((tsA.buildAtlases).get ⟨i, hi⟩).tiles_end =
          ((tsA.buildAtlases).get ⟨i, hi⟩).tiles_start +
            ((tsA.tiles_new.get ⟨i, hi'⟩).img.width /
              effSpriteW tsA (tsA.tiles_new.get ⟨i, hi'⟩)) *
              ((tsA.tiles_new.get ⟨i, hi'⟩).img.height /
                effSpriteH tsA (tsA.tiles_new.get ⟨i, hi'⟩))) ∧
      (∀ (i : Nat) (h1 : i + 1 < (tsA.buildAtlases).length)
        (h2 : i < (tsA.buildAtlases).length),
        ((tsA.buildAtlases).get ⟨i + 1, h1⟩).tiles_start =
          ((tsA.buildAtlases).get ⟨i, h2⟩).tiles_end) :=
  c7_atlas_ranges tsA (by simp [tsA])

/-! ### Claim C2: content hashing is position-independent -/

theorem viewPixels_congr {i1 i2 : Img} {ox1 oy1 ox2 oy2 w h : Nat}
    (hpix : ∀ x y, x < w → y < h → i1.pix (ox1 + x) (oy1 + y) = i2.pix (ox2 + x) (oy2 + y)) :
    viewPixels i1 ox1 oy1 w h = viewPixels i2 ox2 oy2 w h := by
  unfold viewPixels
  refine List.flatMap_congr fun y hy => ?_
  refine List.map_congr_left fun x hx => ?_
  rw [List.mem_range] at hy hx
  rw [hpix x y hx hy]

/-- C2: hashing a sprite cell depends only on the cell width, the cell height
and the pixel contents of the cell: two atlases with arbitrary id ranges and
grid positions produce the same 32-bit hash for cells of equal dimensions
and equal pixels. -/
theorem c2_hash_position_independent (mix : List Nat → Nat) (a1 a2 : TileAtlas)
    (id1 id2 : Nat) (h1 : a1.in_bounds id1 = true) (h2 : a2.in_bounds id2 = true)
    (hw : a1.sprite_w = a2.sprite_w) (hh : a1.sprite_h = a2.sprite_h)
    (hpix : ∀ x y, x < a1.sprite_w → y < a1.sprite_h →
      a1.img.pix ((a1.get_sprite id1).1 + x) ((a1.get_sprite id1).2 + y) =
        a2.img.pix ((a2.get_sprite id2).1 + x) ((a2.get_sprite id2).2 + y)) :
    a1.get_sprite_hash mix id1 = a2.get_sprite_hash mix id2 := by
  have hs : a1.hashStream id1 = a2.hashStream id2 := by
    unfold TileAtlas.hashStream
    dsimp only
    rw [← hw, ← hh, viewPixels_congr hpix]
  unfold TileAtlas.get_sprite_hash
  rw [h1, h2, hs]

/-- C2 witness: the constant-pixel cell at global id 1 of `atlasA` (grid
position (1,0), range 0..2) hashes identically to the cell at global id 5
of `atlasB` (grid position (0,0), range 5..6). -/
theorem c2_hash_position_independent_witness :
    atlasA.get_sprite_hash sumMix 1 = atlasB.get_sprite_hash sumMix 5 :=
  c2_hash_position_independent sumMix atlasA atlasB 1 5 (by decide) (by decide) rfl rfl
    (fun _ _ _ _ => rfl)

/-! ### Claims C3 and C4: the differ's restricted diff and its suppression -/

theorem mem_diffIds {v1 v2 : List SingleTile} {s : String} :
    s ∈ diffIds v1 v2 ↔
      ∃ t ∈ v1, tileId t = s ∧ t ∉ v2 ∧ s ∈ v2.map tileId := by
  unfold diffIds
  rw [(sortBy_perm strLe _).mem_iff, List.mem_map]
  constructor
  · rintro ⟨t, htf, rfl⟩
    rw [List.mem_filter, List.mem_dedup] at htf
    obtain ⟨ht1, hpred⟩ := htf
    rw [Bool.and_eq_true, Bool.not_eq_true', decide_eq_false_iff_not, decide_eq_true_eq]
      at hpred
    exact ⟨t, ht1, rfl, hpred.1, hpred.2⟩
  · rintro ⟨t, ht1, rfl, hnot, hid⟩
    refine ⟨t, ?_, rfl⟩
    rw [List.mem_filter, List.mem_dedup]
    refine ⟨ht1, ?_⟩
    rw [Bool.and_eq_true, Bool.not_eq_true', decide_eq_false_iff_not, decide_eq_true_eq]
    exact ⟨hnot, hid⟩

theorem mem_diffIds_symm {v1 v2 : List SingleTile} {s : String}
    (hnd1 : (v1.map tileId).Nodup) (h : s ∈ diffIds v1 v2) : s ∈ diffIds v2 v1 := by
  rw [mem_diffIds] at h ⊢
  obtain ⟨t, ht1, rfl, hnot2, hid2⟩ := h
  obtain ⟨u, hu2, huid⟩ := List.mem_map.mp hid2
  refine ⟨u, hu2, huid, ?_, List.mem_map.mpr ⟨t, ht1, rfl⟩⟩
  intro hu1
  have htu : u = t := List.inj_on_of_nodup_map hnd1 hu1 ht1 huid
  exact hnot2 (htu ▸ hu2)

/-- C3: with duplicate-free expansions on both sides, each side's differing
list contains exactly the ids of the full records absent from the other side
whose id the other side does carry (under a different record); ids missing
from the other side entirely never appear, and both sides list the same set
of differing ids. -/
theorem c3_restricted_diff (mix : List Nat → Nat) (ts1 ts2 : Tileset)
    (hinfo1 : ts1.tile_info ≠ []) (hinfo2 : ts2.tile_info ≠ [])
    (hnd1 : ((ts1.generate_variations mix true).map tileId).Nodup)
    (hnd2 : ((ts2.generate_variations mix true).map tileId).Nodup) :
    ∃ l1 l2,
      (compare_tilesets mix ts1 ts2).diff1 = some l1 ∧
      (compare_tilesets mix ts1 ts2).diff2 = some l2 ∧
      (∀ s, s ∈ l1 ↔
        ∃ t ∈ ts1.generate_variations mix true, tileId t = s ∧
          t ∉ ts2.generate_variations mix true ∧
          s ∈ (ts2.generate_variations mix true).map tileId) ∧
      (∀ s, s ∈ l2 ↔
        ∃ t ∈ ts2.generate_variations mix true, tileId t = s ∧
          t ∉ ts1.generate_variations mix true ∧
          s ∈ (ts1.generate_variations mix true).map tileId) ∧
      (∀ s, s ∈ l1 ↔ s ∈ l2) := by
  have hd1 : find_duplicates (ts1.generate_variations mix true) = [] :=
    (find_duplicates_eq_nil_iff _).mpr hnd1
  have hd2 : find_duplicates (ts2.generate_variations mix true) = [] :=
    (find_duplicates_eq_nil_iff _).mpr hnd2
  refine ⟨diffIds (ts1.generate_variations mix true) (ts2.generate_variations mix true),
    diffIds (ts2.generate_variations mix true) (ts1.generate_variations mix true),
    ?_, ?_, fun s => mem_diffIds, fun s => mem_diffIds,
    fun s => ⟨mem_diffIds_symm hnd1, mem_diffIds_symm hnd2⟩⟩
  · simp [compare_tilesets, hd1, hd2]
  · simp [compare_tilesets, hd1, hd2]

/-- C3 witness: comparing `tsA` with `tsB` (shared id `wall` under differing
records; `wall_corner` only on the first side) instantiates the
characterization. -/
theorem c3_restricted_diff_witness :
    ∃ l1 l2,
      (compare_tilesets sumMix tsA tsB).diff1 = some l1 ∧
      (compare_tilesets sumMix tsA tsB).diff2 = some l2 ∧
      (∀ s, s ∈ l1 ↔
        ∃ t ∈ tsA.generate_variations sumMix true, tileId t = s ∧
          t ∉ tsB.generate_variations sumMix true ∧
          s ∈ (tsB.generate_variations sumMix true).map tileId) ∧
      (∀ s, s ∈ l2 ↔
        ∃ t ∈ tsB.generate_variations sumMix true, tileId t = s ∧
          t ∉ tsA.generate_variations sumMix true ∧
          s ∈ (tsA.generate_variations sumMix true).map tileId) ∧
      (∀ s, s ∈ l1 ↔ s ∈ l2) :=
  c3_restricted_diff sumMix tsA tsB (by simp [tsA]) (by simp [tsB]) (by decide) (by decide)

/-- C4: as soon as either expansion carries a duplicate primary id, the
full-record diff is skipped for both sides (the `different.txt` values are
absent), while both duplicates lists and both id-exclusive lists are still
produced. -/
theorem c4_duplicates_suppress_diff (mix : List Nat → Nat) (ts1 ts2 : Tileset)
    (hinfo1 : ts1.tile_info ≠ []) (hinfo2 : ts2.tile_info ≠ [])
    (hdup : ¬((ts1.generate_variations mix true).map tileId).Nodup ∨
      ¬((ts2.generate_variations mix true).map tileId).Nodup) :
    (compare_tilesets mix ts1 ts2).diff1 = none ∧
      (compare_tilesets mix ts1 ts2).diff2 = none ∧
      ((compare_tilesets mix ts1 ts2).dups1 ≠ [] ∨
        (compare_tilesets mix ts1 ts2).dups2 ≠ []) ∧
      (compare_tilesets mix ts1 ts2).dups1 =
        find_duplicates (ts1.generate_variations mix true) ∧
      (compare_tilesets mix ts1 ts2).dups2 =
        find_duplicates (ts2.generate_variations mix true) ∧
      (compare_tilesets mix ts1 ts2).excl1 =
        exclusives (ts1.generate_variations mix true) (ts2.generate_variations mix true) ∧
      (compare_tilesets mix ts1 ts2).excl2 =
        exclusives (ts2.generate_variations mix true) (ts1.generate_variations mix true) := by
  have hne : find_duplicates (ts1.generate_variations mix true) ≠ [] ∨
      find_duplicates (ts2.generate_variations mix true) ≠ [] := by
    refine hdup.imp (fun h h' => h ?_) (fun h h' => h ?_)
    · exact (find_duplicates_eq_nil_iff _).mp h'
    · exact (find_duplicates_eq_nil_iff _).mp h'
  have hdd : ((find_duplicates (ts1.generate_variations mix true)).isEmpty &&
      (find_duplicates (ts2.generate_variations mix true)).isEmpty) = false := by
    rcases hne with h | h
    · have hA : (find_duplicates (ts1.generate_variations mix true)).isEmpty = false := by
        cases hfd : find_duplicates (ts1.generate_variations mix true) with
        | nil => exact absurd hfd h
        | cons a t => rfl
      rw [hA, Bool.false_and]
    · have hB : (find_duplicates (ts2.generate_variations mix true)).isEmpty = false := by
        cases hfd : find_duplicates (ts2.generate_variations mix true) with
        | nil => exact absurd hfd h
        | cons a t => rfl
      rw [hB, Bool.and_false]
  refine ⟨?_, ?_, ?_, rfl, rfl, rfl, rfl⟩
  · simp [compare_tilesets, hdd]
  · simp [compare_tilesets, hdd]
  · show find_duplicates (ts1.generate_variations mix true) ≠ [] ∨
      find_duplicates (ts2.generate_variations mix true) ≠ []
    exact hne

/-- C4 witness: comparing the duplicate-carrying `tsD` with `tsB` skips both
diff lists while still producing duplicates and exclusives. -/
theorem c4_duplicates_suppress_diff_witness :
    (compare_tilesets sumMix tsD tsB).diff1 = none ∧
      (compare_tilesets sumMix tsD tsB).diff2 = none ∧
      ((compare_tilesets sumMix tsD tsB).dups1 ≠ [] ∨
        (compare_tilesets sumMix tsD tsB).dups2 ≠ []) ∧
      (compare_tilesets sumMix tsD tsB).dups1 =
        find_duplicates (tsD.generate_variations sumMix true) ∧
      (compare_tilesets sumMix tsD tsB).dups2 =
        find_duplicates (tsB.generate_variations sumMix true) ∧
      (compare_tilesets sumMix tsD tsB).excl1 =
        exclusives (tsD.generate_variations sumMix true) (tsB.generate_variations sumMix true) ∧
      (compare_tilesets sumMix tsD tsB).excl2 =
        exclusives (tsB.generate_variations sumMix true) (tsD.generate_variations sumMix true) :=
  c4_duplicates_suppress_diff sumMix tsD tsB (by simp [tsD]) (by simp [tsB])
    (Or.inl (by decide))

/-! ### Claim C8: behavior of the compare subcommand on a failed load -/

theorem aborted_ne_loadA (a : String) : "Aborted." ≠ "Loading tileset A:  " ++ a := by
  intro h
  have h2 := congrArg String.data h
  rw [String.data_append] at h2
  simp at h2

theorem aborted_ne_loadB (b : String) : "Aborted." ≠ "Loading tileset B: " ++ b := by
  intro h
  have h2 := congrArg String.data h
  rw [String.data_append] at h2
  simp at h2

/-- C8 counterexample: on a filesystem where the tileset directory does not
exist the load fails, the run aborts by panic without running the
comparison, and no "Aborted." line is ever printed — refuting the claim
that a failed load prints "Aborted.".  (`load_tileset` fails through
`assert!`, which panics before the `is_none` check in `main` can print.) -/
theorem c8_counterexample_no_aborted_line :
    (∃ e, load_tileset fsEmpty "a" = .error e) ∧
      (mainCompare sumMix fsEmpty "a" "b").panicked = true ∧
      (mainCompare sumMix fsEmpty "a" "b").comparison = none ∧
      "Aborted." ∉ (mainCompare sumMix fsEmpty "a" "b").printed := by
  refine ⟨⟨"assertion failed: base_path.exists()", rfl⟩, rfl, rfl, ?_⟩
  decide

/-- C8 (amended): when loading either tileset fails, the process aborts — by
the failed assertion's panic, not an "Aborted." message — without running
the comparison; the "Aborted." branch of `main` is unreachable because
`load_tileset` returns `Some` whenever it returns at all. -/
theorem c8_load_failure_aborts (mix : List Nat → Nat) (fs : FileSys) (a b : String)
    (h : (∃ e, load_tileset fs a = .error e) ∨ (∃ e, load_tileset fs b = .error e)) :
    (mainCompare mix fs a b).panicked = true ∧
      (mainCompare mix fs a b).comparison = none ∧
      "Aborted." ∉ (mainCompare mix fs a b).printed := by
  unfold mainCompare
  cases hA : load_tileset fs a with
  | error e =>
    refine ⟨rfl, rfl, ?_⟩
    intro hmem
    rcases List.mem_cons.mp hmem with h1 | hmem
    · exact absurd h1 (by decide)
    rcases List.mem_cons.mp hmem with h2 | hmem
    · exact aborted_ne_loadA a h2
    · simp at hmem
  | ok ta =>
    cases hB : load_tileset fs b with
    | error e =>
      refine ⟨rfl, rfl, ?_⟩
      intro hmem
      simp only [List.append_assoc, List.cons_append, List.nil_append] at hmem
      rcases List.mem_cons.mp hmem with h1 | hmem
      · exact absurd h1 (by decide)
      rcases List.mem_cons.mp hmem with h2 | hmem
      · exact aborted_ne_loadA a h2
      rcases List.mem_cons.mp hmem with h3 | hmem
      · exact aborted_ne_loadB b h3
      · simp at hmem
    | ok tb =>
      rcases h with ⟨e, he⟩ | ⟨e, he⟩
      · rw [hA] at he
        exact absurd he (by simp)
      · rw [hB] at he
        exact absurd he (by simp)

/-- C8 witness: the amended statement instantiated on the all-missing
filesystem. -/
theorem c8_load_failure_aborts_witness :
    (mainCompare sumMix fsEmpty "p" "q").panicked = true ∧
      (mainCompare sumMix fsEmpty "p" "q").comparison = none ∧
      "Aborted." ∉ (mainCompare sumMix fsEmpty "p" "q").printed :=
  c8_load_failure_aborts sumMix fsEmpty "p" "q"
    (Or.inl ⟨"assertion failed: base_path.exists()", rfl⟩)

/-! ### Claim C9: field shape of additional_tiles entries -/

/-- C9 counterexample: the tile entry `cfgSubComment`, whose additional tile
uses only fields documented for tile entries (`id` and the `"//"` comment),
fails to parse, while the identical entry without the comment parses — the
additional-tiles element parser is the strict `SingleTile` deserializer,
which has no `"//"` field. -/
theorem c9_counterexample_sub_comment_rejected :
    (parseCompositeTile cfgSubComment).toOption = none ∧
      (∃ t, parseCompositeTile cfgSubPlain = .ok t) := by
  constructor
  · rfl
  · exact ⟨_, rfl⟩

/-- C9 (amended): an entry of `additional_tiles` accepts exactly the plain
tile fields (`id`, `fg`, `bg`, `rotates`, `multitile`, `animated`,
`height_3d`): any object carrying only those keys, without duplicates, with
an `id` present and every present field's value accepted by that field's
deserializer, parses; any other key there — in particular `"//"` or a
nested `additional_tiles` — is an unrecognized field and fails the parse of
the entry and of the whole enclosing tile. -/
theorem c9_additional_tiles_fields :
    (∀ kvs : List (String × Json), (∃ p ∈ kvs, p.1 ∉ singleTileFields) →
      ∃ e, parseSingleTile (.obj kvs) = .error e) ∧
    (∀ kvs : List (String × Json),
      (kvs.map Prod.fst).Nodup →
      (∀ p ∈ kvs, p.1 ∈ singleTileFields) →
      (∃ v, getField kvs "id" = some v) →
      (∀ v, getField kvs "id" = some v → ∃ x, parseSingleOrVec parseJsonString v = .ok x) →
      (∀ v, getField kvs "fg" = some v → ∃ x, parseSingleOrVec parseSpriteRef v = .ok x) →
      (∀ v, getField kvs "bg" = some v → ∃ x, parseSingleOrVec parseSpriteRef v = .ok x) →
      (∀ v, getField kvs "rotates" = some v → ∃ x, parseRotates v = .ok x) →
      (∀ v, getField kvs "multitile" = some v → ∃ x, parseJsonBool v = .ok x) →
      (∀ v, getField kvs "animated" = some v → ∃ x, parseJsonBool v = .ok x) →
      (∀ v, getField kvs "height_3d" = some v → ∃ x, parseJsonInt v = .ok x) →
      ∃ t, parseSingleTile (.obj kvs) = .ok t) ∧
    (∀ (i : String) (kvs : List (String × Json)) (e : String),
      parseSingleTile (.obj kvs) = .error e →
      ∃ e2, parseCompositeTile
        (.obj [("id", .str i), ("additional_tiles", .arr [.obj kvs])]) = .error e2) := by
  refine ⟨?_, ?_, ?_⟩
  · intro kvs hp
    obtain ⟨p, hpmem, hpnot⟩ := hp
    cases hf : kvs.find? fun q => !(decide (q.1 ∈ singleTileFields)) with
    | none =>
      exfalso
      have hnone := List.find?_eq_none.mp hf p hpmem
      simp [hpnot] at hnone
    | some q =>
      exact ⟨"unknown field " ++ q.1, by simp only [parseSingleTile, hf]⟩
  · intro kvs hnd hkeys hid hido hfg hbg hrot hmt han hh3
    have hfind : (kvs.find? fun q => !(decide (q.1 ∈ singleTileFields))) = none := by
      rw [List.find?_eq_none]
      intro p hp
      simp [hkeys p hp]
    obtain ⟨v, hv⟩ := hid
    obtain ⟨ids, hids⟩ := hido v hv
    have hfgR : ∃ x, parseFieldD kvs "fg" (parseSingleOrVec parseSpriteRef) [] = .ok x := by
      unfold parseFieldD
      cases hw : getField kvs "fg" with
      | none => exact ⟨[], rfl⟩
      | some w => exact hfg w hw
    obtain ⟨fgv, hfgv⟩ := hfgR
    have hbgR : ∃ x, parseFieldD kvs "bg" (parseSingleOrVec parseSpriteRef) [] = .ok x := by
      unfold parseFieldD
      cases hw : getField kvs "bg" with
      | none => exact ⟨[], rfl⟩
      | some w => exact hbg w hw
    obtain ⟨bgv, hbgv⟩ := hbgR
    have hrotR : ∃ x, parseFieldD kvs "rotates" parseRotates none = .ok x := by
      unfold parseFieldD
      cases hw : getField kvs "rotates" with
      | none => exact ⟨none, rfl⟩
      | some w => exact hrot w hw
    obtain ⟨rotv, hrotv⟩ := hrotR
    have hmtR : ∃ x, parseFieldD kvs "multitile" parseJsonBool false = .ok x := by
      unfold parseFieldD
      cases hw : getField kvs "multitile" with
      | none => exact ⟨false, rfl⟩
      | some w => exact hmt w hw
    obtain ⟨mtv, hmtv⟩ := hmtR
    have hanR : ∃ x, parseFieldD kvs "animated" parseJsonBool false = .ok x := by
      unfold parseFieldD
      cases hw : getField kvs "animated" with
      | none => exact ⟨false, rfl⟩
      | some w => exact han w hw
    obtain ⟨anv, hanv⟩ := hanR
    have hh3R : ∃ x, parseFieldD kvs "height_3d" parseJsonInt 0 = .ok x := by
      unfold parseFieldD
      cases hw : getField kvs "height_3d" with
      | none => exact ⟨0, rfl⟩
      | some w => exact hh3 w hw
    obtain ⟨h3v, hh3v⟩ := hh3R
    refine ⟨⟨ids, fgv, bgv, rotv, mtv, anv, h3v⟩, ?_⟩
    unfold parseSingleTile
    dsimp only
    rw [hfind]
    dsimp only
    rw [if_neg (by simp [hnd])]
    rw [hv]
    dsimp only
    rw [hids, hfgv, hbgv, hrotv, hmtv, hanv, hh3v]
    rfl
  · intro i kvs e he
    refine ⟨e, ?_⟩
    simp [parseCompositeTile, getField, compositeOwnFields, List.mapM.loop, he, Except.bind]
    rfl

/-- C9 witness: the amended statement instantiated — the `"//"` comment in
an additional tile is rejected, a well-formed all-plain-fields entry
parses, and the failure propagates through `parseCompositeTile`. -/
theorem c9_additional_tiles_fields_witness :
    (∃ e, parseSingleTile (.obj [("id", Json.str "corner"), ("//", Json.str "note")]) =
      .error e) ∧
      (∃ t, parseSingleTile (.obj
        [("id", Json.str "wall"), ("fg", Json.num 1), ("bg", Json.num 2),
         ("rotates", Json.bool true), ("multitile", Json.bool false),
         ("animated", Json.bool false), ("height_3d", Json.num 4)]) = .ok t) ∧
      (∃ e2, parseCompositeTile
        (.obj [("id", Json.str "wall"),
               ("additional_tiles",
                 Json.arr [.obj [("id", Json.str "corner"), ("//", Json.str "note")]])]) =
          .error e2) := by
  obtain ⟨ha, hb, hc⟩ := c9_additional_tiles_fields
  have h1 := ha [("id", Json.str "corner"), ("//", Json.str "note")]
    ⟨("//", Json.str "note"), by simp, by decide⟩
  obtain ⟨e, he⟩ := h1
  refine ⟨⟨e, he⟩, ?_, hc "wall" _ e he⟩
  exact hb [("id", Json.str "wall"), ("fg", Json.num 1), ("bg", Json.num 2),
      ("rotates", Json.bool true), ("multitile", Json.bool false),
      ("animated", Json.bool false), ("height_3d", Json.num 4)]
    (by decide) (by decide) ⟨Json.str "wall", rfl⟩
    (fun v hv => by cases Option.some.inj hv; exact ⟨["wall"], rfl⟩)
    (fun v hv => by cases Option.some.inj hv; exact ⟨[⟨[1], none⟩], rfl⟩)
    (fun v hv => by cases Option.some.inj hv; exact ⟨[⟨[2], none⟩], rfl⟩)
    (fun v hv => by cases Option.some.inj hv; exact ⟨some true, rfl⟩)
    (fun v hv => by cases Option.some.inj hv; exact ⟨false, rfl⟩)
    (fun v hv => by cases Option.some.inj hv; exact ⟨false, rfl⟩)
    (fun v hv => by cases Option.some.inj hv; exact ⟨4, rfl⟩)

/-! ### Claim C10: hashed and non-hashed expansions align index-wise -/

theorem resolveSprites_id (mix : List Nat → Nat) (dh : Bool) (atl : List TileAtlas)
    (t : SingleTile) : (resolveSprites mix dh atl t).id = t.id := by
  cases dh <;> simp [resolveSprites]

theorem fixRotates_id (t : SingleTile) : (fixRotates t).id = t.id := by
  cases h : t.rotates <;> simp [fixRotates, h]

theorem hashTile_fixRotates (mix : List Nat → Nat) (atl : List TileAtlas) (t : SingleTile) :
    hashTile mix atl (fixRotates t) = fixRotates (hashTile mix atl t) := by
  cases h : t.rotates <;> simp [fixRotates, hashTile, h]

theorem intCmp_eq_iff {a b : Int} : intCmp a b = .eq ↔ a = b := by
  unfold intCmp
  split
  · simp
    omega
  · split
    · simp
      omega
    · simp
      omega

theorem boolCmp_eq_iff {a b : Bool} : boolCmp a b = .eq ↔ a = b := by
  cases a <;> cases b <;> simp [boolCmp]

theorem optCmp_eq_iff {α : Type} {c : α → α → Ordering} (hc : ∀ x y, c x y = .eq ↔ x = y)
    {a b : Option α} : optCmp c a b = .eq ↔ a = b := by
  cases a <;> cases b <;> simp [optCmp, hc]

theorem then_eq_eq {o p : Ordering} : o.then p = .eq ↔ o = .eq ∧ p = .eq := by
  cases o <;> simp [Ordering.then]

theorem spriteCmp_eq_iff {a b : SpriteIdWithWeight} : spriteCmp a b = .eq ↔ a = b := by
  unfold spriteCmp
  rw [then_eq_eq, listCmp_eq_iff (fun x y => natCmp_eq_iff),
    optCmp_eq_iff (fun x y => intCmp_eq_iff)]
  cases a
  cases b
  simp

theorem tileCmp_eq_iff {a b : SingleTile} : tileCmp a b = .eq ↔ a = b := by
  unfold tileCmp
  rw [then_eq_eq, then_eq_eq, then_eq_eq, then_eq_eq, then_eq_eq, then_eq_eq,
    listCmp_eq_iff (fun x y => strCmp_eq_iff),
    listCmp_eq_iff (fun x y => spriteCmp_eq_iff),
    listCmp_eq_iff (fun x y => spriteCmp_eq_iff),
    optCmp_eq_iff (fun x y => boolCmp_eq_iff),
    boolCmp_eq_iff, boolCmp_eq_iff, intCmp_eq_iff]
  cases a
  cases b
  simp

theorem tileCmp_self (t : SingleTile) : tileCmp t t = .eq :=
  tileCmp_eq_iff.mpr rfl

theorem then_of_ne_eq {o p : Ordering} (h : o ≠ .eq) : o.then p = o := by
  cases o
  · rfl
  · exact absurd rfl h
  · rfl

theorem tileCmp_singleton_ids {a b : SingleTile} {x y : String} (hx : a.id = [x])
    (hy : b.id = [y]) (hne : x ≠ y) : tileCmp a b = strCmp x y := by
  unfold tileCmp
  rw [hx, hy]
  have h1 : listCmp strCmp [x] [y] = strCmp x y := by
    show (strCmp x y).then (listCmp strCmp [] []) = strCmp x y
    cases strCmp x y <;> rfl
  rw [h1]
  exact then_of_ne_eq fun he => hne (strCmp_eq_iff.mp he)

theorem tileId_hashTile (mix : List Nat → Nat) (atl : List TileAtlas) (t : SingleTile) :
    tileId (hashTile mix atl t) = tileId t := rfl

theorem tileLe_hashTile (mix : List Nat → Nat) (atl : List TileAtlas) {a b : SingleTile}
    (hsa : ∃ x, a.id = [x]) (hsb : ∃ y, b.id = [y]) (h : a = b ∨ tileId a ≠ tileId b) :
    tileLe (hashTile mix atl a) (hashTile mix atl b) = tileLe a b := by
  rcases h with rfl | hne
  · unfold tileLe
    rw [tileCmp_self, tileCmp_self]
  · obtain ⟨x, hx⟩ := hsa
    obtain ⟨y, hy⟩ := hsb
    have hxy : x ≠ y := by
      intro hcontra
      apply hne
      unfold tileId
      rw [hx, hy, hcontra]
    unfold tileLe
    rw [tileCmp_singleton_ids hx hy hxy, tileCmp_singleton_ids (a := hashTile mix atl a)
      (b := hashTile mix atl b) hx hy hxy]

theorem id_singleton_of_mem_expandTile {mix : List Nat → Nat} {dh : Bool}
    {atl : List TileAtlas} {tile : CompositeTile} {t : SingleTile}
    (h : t ∈ expandTile mix dh atl tile) : ∃ s, t.id = [s] := by
  unfold expandTile at h
  obtain ⟨pid, _, hmem⟩ := List.mem_flatMap.mp h
  unfold expandOne at hmem
  rcases List.mem_append.mp hmem with hl | hr
  · obtain ⟨sub, _, hmap⟩ := List.mem_flatMap.mp hl
    obtain ⟨said, _, heq⟩ := List.mem_map.mp hmap
    refine ⟨pid ++ "_" ++ said, ?_⟩
    rw [← heq]
    show (resolveSprites mix dh atl { sub with id := [pid ++ "_" ++ said] }).id = _
    rw [resolveSprites_id]
  · rw [List.mem_singleton.mp hr]
    exact ⟨pid, by rw [fixRotates_id, resolveSprites_id]⟩

theorem id_singleton_of_mem_emitted {mix : List Nat → Nat} {dh : Bool} {ts : Tileset}
    {t : SingleTile}
    (h : t ∈ ts.tiles_new.flatMap fun tn => tn.tiles.flatMap (expandTile mix dh ts.buildAtlases)) :
    ∃ s, t.id = [s] := by
  obtain ⟨tn, _, hmem⟩ := List.mem_flatMap.mp h
  obtain ⟨tile, _, hmem2⟩ := List.mem_flatMap.mp hmem
  exact id_singleton_of_mem_expandTile hmem2

theorem insertBy_map_comm {α : Type} {le : α → α → Bool} {f : α → α} (a : α) :
    ∀ l : List α, (∀ b ∈ l, le (f a) (f b) = le a b) →
      insertBy le (f a) (l.map f) = (insertBy le a l).map f
  | [], _ => rfl
  | b :: bs, h => by
    simp only [List.map_cons, insertBy]
    rw [h b (List.mem_cons_self b bs)]
    cases hab : le a b with
    | true => simp
    | false =>
      simp only [Bool.false_eq_true, if_false, List.map_cons]
      rw [insertBy_map_comm a bs fun x hx => h x (List.mem_cons_of_mem b hx)]

theorem sortBy_map_comm {α : Type} {le : α → α → Bool} {f : α → α} :
    ∀ l : List α, (∀ a ∈ l, ∀ b ∈ l, le (f a) (f b) = le a b) →
      sortBy le (l.map f) = (sortBy le l).map f
  | [], _ => rfl
  | a :: as, h => by
    simp only [List.map_cons, sortBy]
    rw [sortBy_map_comm as fun x hx y hy =>
      h x (List.mem_cons_of_mem a hx) y (List.mem_cons_of_mem a hy)]
    exact insertBy_map_comm a (sortBy le as) fun b hb =>
      h a (List.mem_cons_self a as) b
        (List.mem_cons_of_mem a ((sortBy_perm le as).mem_iff.mp hb))

theorem resolveSprites_true (mix : List Nat → Nat) (atl : List TileAtlas) (t : SingleTile) :
    resolveSprites mix true atl t = hashTile mix atl t := rfl

theorem resolveSprites_false (mix : List Nat → Nat) (atl : List TileAtlas) (t : SingleTile) :
    resolveSprites mix false atl t = t := rfl

theorem expandOne_hash (mix : List Nat → Nat) (atl : List TileAtlas) (tile : CompositeTile)
    (pid : String) :
    expandOne mix true atl tile pid =
      (expandOne mix false atl tile pid).map (hashTile mix atl) := by
  unfold expandOne
  dsimp only
  rw [List.map_append]
  congr 1
  · rw [List.map_flatMap]
    refine List.flatMap_congr fun sub hsub => ?_
    rw [List.map_map]
    refine List.map_congr_left fun said hsaid => ?_
    dsimp only [Function.comp]
    rw [height_parent_clone, height_parent_clone]
    simp [resolveSprites_true, resolveSprites_false, hashTile]
  · simp only [List.map_cons, List.map_nil]
    rw [resolveSprites_true, resolveSprites_false, hashTile_fixRotates]

theorem expandTile_hash (mix : List Nat → Nat) (atl : List TileAtlas) (tile : CompositeTile) :
    expandTile mix true atl tile = (expandTile mix false atl tile).map (hashTile mix atl) := by
  unfold expandTile
  rw [List.map_flatMap]
  exact List.flatMap_congr fun pid _ => expandOne_hash mix atl tile pid

theorem emitted_hash (mix : List Nat → Nat) (ts : Tileset) :
    (ts.tiles_new.flatMap fun tn => tn.tiles.flatMap (expandTile mix true ts.buildAtlases)) =
      (ts.tiles_new.flatMap fun tn =>
        tn.tiles.flatMap (expandTile mix false ts.buildAtlases)).map (hashTile mix ts.buildAtlases) := by
  rw [List.map_flatMap]
  refine List.flatMap_congr fun tn _ => ?_
  rw [List.map_flatMap]
  exact List.flatMap_congr fun tile _ => expandTile_hash mix ts.buildAtlases tile

theorem generate_variations_hash (mix : List Nat → Nat) (ts : Tileset)
    (hnd : ((ts.generate_variations mix false).map tileId).Nodup) :
    ts.generate_variations mix true =
      (ts.generate_variations mix false).map (hashTile mix ts.buildAtlases) := by
  unfold Tileset.generate_variations
  rw [emitted_hash]
  refine sortBy_map_comm _ fun a ha b hb => ?_
  have hnd' : (((ts.tiles_new.flatMap fun tn =>
      tn.tiles.flatMap (expandTile mix false ts.buildAtlases)).map tileId)).Nodup := by
    refine (List.Perm.nodup_iff ?_).mp hnd
    exact (sortBy_perm tileLe (ts.tiles_new.flatMap fun tn =>
      tn.tiles.flatMap (expandTile mix false ts.buildAtlases))).map tileId
  refine tileLe_hashTile mix ts.buildAtlases (id_singleton_of_mem_emitted ha)
    (id_singleton_of_mem_emitted hb) ?_
  by_cases hab : a = b
  · exact Or.inl hab
  · refine Or.inr fun hid => hab ?_
    exact List.inj_on_of_nodup_map hnd' ha hb hid

theorem foldl_lookup_mem :
    ∀ (l : List (String × Nat)) (acc : Option Nat) (k : String) (v : Nat),
      l.foldl (fun acc p => if p.1 = k then some p.2 else acc) acc = some v →
      (k, v) ∈ l ∨ acc = some v
  | [], _, _, _, h => Or.inr h
  | p :: t, acc, k, v, h => by
    rcases foldl_lookup_mem t _ k v h with hmem | hacc
    · exact Or.inl (List.mem_cons_of_mem p hmem)
    · dsimp only at hacc
      by_cases hk : p.1 = k
      · rw [if_pos hk] at hacc
        injection hacc with hv
        left
        obtain ⟨p1, p2⟩ := p
        simp only at hk hv
        rw [← hk, ← hv]
        exact List.mem_cons_self _ t
      · rw [if_neg hk] at hacc
        exact Or.inr hacc

theorem lookupLast_mem {l : List (String × Nat)} {k : String} {v : Nat}
    (h : lookupLast l k = some v) : (k, v) ∈ l := by
  rcases foldl_lookup_mem l none k v h with hmem | habs
  · exact hmem
  · exact absurd habs (by simp)

/-- C10: when the expanded primary ids are pairwise distinct, the hashed
expansion is exactly the non-hashed expansion with every record's sprite
references rewritten in place — same length, same order, same id at every
index — and hence the hashed JSON record that extraction writes for a
requested id carries that same id. -/
theorem c10_extract_id_stable (mix : List Nat → Nat) (ts : Tileset)
    (hinfo : ts.tile_info ≠ [])
    (hnd : ((ts.generate_variations mix false).map tileId).Nodup) :
    ts.generate_variations mix true =
      (ts.generate_variations mix false).map (hashTile mix ts.buildAtlases) ∧
      (ts.generate_variations mix true).map tileId =
        (ts.generate_variations mix false).map tileId ∧
      ∀ r t, extract_record mix ts r = some t → tileId t = r := by
  have hmain := generate_variations_hash mix ts hnd
  refine ⟨hmain, ?_, ?_⟩
  · rw [hmain, List.map_map]
    rfl
  · intro r t h
    unfold extract_record at h
    dsimp only at h
    cases hl : lookupLast ((ts.generate_variations mix false).enum.map
        fun p => (tileId p.2, p.1)) r with
    | none =>
      rw [hl] at h
      exact absurd h (by simp)
    | some idx =>
      rw [hl] at h
      dsimp only [Option.bind] at h
      have hpair := lookupLast_mem hl
      obtain ⟨q, hq, heq⟩ := List.mem_map.mp hpair
      obtain ⟨qi, qx⟩ := q
      simp only [Prod.mk.injEq] at heq
      obtain ⟨hr, hi⟩ := heq
      subst hi
      obtain ⟨hlt, hx⟩ := List.mem_enum hq
      rw [hmain, List.getElem?_map, List.getElem?_eq_getElem hlt] at h
      have ht : hashTile mix ts.buildAtlases
          ((ts.generate_variations mix false).get ⟨qi, hlt⟩) = t := by
        simpa using h
      have hx2 : qx = (ts.generate_variations mix false).get ⟨qi, hlt⟩ := by
        simpa using hx
      rw [← ht, tileId_hashTile, ← hx2]
      exact hr

/-- C10 witness: the alignment instantiated on the concrete tileset `tsA`,
whose expanded ids `wall` and `wall_corner` are distinct. -/
theorem c10_extract_id_stable_witness :
    tsA.generate_variations sumMix true =
      (tsA.generate_variations sumMix false).map (hashTile sumMix tsA.buildAtlases) ∧
      (tsA.generate_variations sumMix true).map tileId =
        (tsA.generate_variations sumMix false).map tileId ∧
      ∀ r t, extract_record sumMix tsA r = some t → tileId t = r :=
  c10_extract_id_stable sumMix tsA (by simp [tsA]) (by decide)
